import Mathlib

/-!
Verification of the ai-trader decision engine.

Shallow embedding of the decision-engine code: the signal-fusion scoring
functions, the position ledger (`analyzeForecast` / `closePosition`), the
historical-dataset builder (`fetchHistoricalData`), the forecast cache
(`makeForecast` variants) and the accuracy tracker
(`checkForecastAccuracy`).  JavaScript numbers are embedded as exact
rationals; the only place where IEEE special values matter (the unguarded
R-squared division) is modelled with an explicit value domain carrying
NaN and the infinities.  Key-value state is passed explicitly; the swap
oracle and the forecasting service are abstract parameters.
-/

namespace AiTrader

/- Trading algorithm configuration, from the TRADING_CONFIG constant of the
trading module. -/
namespace TradingConfig

def DECAY_ALPHA : ℚ := 0.92

def DECAY_ALPHA_EXISTING : ℚ := 0.9

def STOP_LOSS_THRESHOLD : ℚ := -0.02

def TAKE_PROFIT_THRESHOLD : ℚ := 0.03

def INITIAL_BALANCE : ℚ := 1000

def OBV_WINDOW_SIZE : ℕ := 12

def SLOPE_THRESHOLD : ℚ := 0.1

def AI_SCORE_MULTIPLIER : ℚ := 1800

def AI_SCORE_MULTIPLIER_EXISTING : ℚ := 1500

def VWAP_SCORE : ℚ := 1

def BBANDS_MULTIPLIER : ℚ := 1.5

def RSI_MULTIPLIER : ℚ := 2

def OBV_DIVERGENCE_MULTIPLIER : ℚ := 2.5

def PROFIT_SCORE_MULTIPLIER : ℚ := 1

def TOTAL_SCORE_BUY_THRESHOLD : ℚ := 5

def TOTAL_SCORE_SELL_THRESHOLD : ℚ := -3.5

end TradingConfig

/-- Math.sign. -/
def jsSign (x : ℚ) : ℚ :=
  if 0 < x then 1 else if x < 0 then -1 else 0

/-- Math.max over a spread array.  JavaScript returns negative infinity for an
empty array; in the engine that value only ever flows into a slope
normalisation whose numerator is then 0 (the slope of a list shorter than the
window is 0), so the result is 0 either way and we may return any rational for
the empty list. -/
def jsMaxList : List ℚ → ℚ
  | [] => 0
  | h :: t => t.foldl max h

/-- arr.slice(-n): the last n elements (the whole list when it is shorter). -/
def lastN (n : ℕ) (l : List ℚ) : List ℚ :=
  l.drop (l.length - n)

/-- calculateSlope: linear-regression slope of the last windowSize values,
0 when fewer values are available or the denominator vanishes. -/
def calculateSlope (values : List ℚ) (windowSize : ℕ) : ℚ :=
  if values.length < windowSize then 0
  else
    let subset := values.drop (values.length - windowSize)
    let sumX : ℚ := ((List.range windowSize).map (fun i => (i : ℚ))).sum
    let sumY : ℚ := subset.sum
    let xMean := sumX / windowSize
    let yMean := sumY / windowSize
    let pairs := (List.range windowSize).zip subset
    let numerator := (pairs.map (fun p => ((p.1 : ℚ) - xMean) * (p.2 - yMean))).sum
    let denominator := (pairs.map (fun p => ((p.1 : ℚ) - xMean) * ((p.1 : ℚ) - xMean))).sum
    if denominator ≠ 0 then numerator / denominator else 0

/-- detectSlopeDivergence: divergence score between price and OBV slopes. -/
def detectSlopeDivergence (priceSlope obvSlope threshold : ℚ) : ℚ :=
  if |priceSlope| < threshold then 0
  else
    let divergenceStrength := (priceSlope * -obvSlope) / max |priceSlope| |obvSlope|
    let scaleFactor := min (|priceSlope| / threshold) 1
    divergenceStrength * scaleFactor

/-- calculateRsiScore: RSI centred at 50, normalised and squared keeping the
sign. -/
def calculateRsiScore (rsi : ℚ) : ℚ :=
  let centered := rsi - 50
  jsSign centered * (|centered| / 50) ^ 2

/-- calculateBBandsScore. -/
def calculateBBandsScore (currentPrice upperBand lowerBand : ℚ) : ℚ :=
  let middleBand := (upperBand + lowerBand) / 2
  let totalRange := upperBand - lowerBand
  let pricePosition := (currentPrice - middleBand) / (totalRange / 2) ;
  -pricePosition * TradingConfig.BBANDS_MULTIPLIER

/-- calculateProfitScore.  The JavaScript guard `if (!entryPrice) return 0`
is falsy both for a missing entry price and for an entry price of 0. -/
def calculateProfitScore (currentPrice : ℚ) (entryPrice : Option ℚ) : ℚ :=
  match entryPrice with
  | none => 0
  | some e =>
    if e = 0 then 0
    else
      let priceDiff := (currentPrice - e) / e
      if 0 < priceDiff then -priceDiff * TradingConfig.PROFIT_SCORE_MULTIPLIER else 0

/-- calculateVwapScore: 0 within a 0.5 percent band, then half-point steps per
additional percent of deviation, signed by the side of the deviation. -/
def calculateVwapScore (currentPrice vwap : ℚ) : ℚ :=
  let vwapDiff := (vwap - currentPrice) / currentPrice
  let threshold : ℚ := 0.005
  if |vwapDiff| ≤ threshold then 0
  else
    let additionalPercentage := |vwapDiff| - threshold
    let score : ℚ := 0.5 * (⌊additionalPercentage / 0.01⌋ : ℚ)
    if 0 < vwapDiff then score else -score

/-- calculateTaSignal: sum of the technical sub-scores (the RSI term is
subtracted). -/
def calculateTaSignal (currentPrice vwap bbandsUpper bbandsLower rsi : ℚ)
    (prices obvs : List ℚ) (entryPrice : Option ℚ) : ℚ :=
  let vwapScore := calculateVwapScore currentPrice vwap * TradingConfig.VWAP_SCORE
  let bbandsScore := calculateBBandsScore currentPrice bbandsUpper bbandsLower
  let rsiScore := calculateRsiScore rsi * TradingConfig.RSI_MULTIPLIER
  let priceSlope := calculateSlope prices TradingConfig.OBV_WINDOW_SIZE
  let obvSlope := calculateSlope obvs TradingConfig.OBV_WINDOW_SIZE
  let maxPrice := jsMaxList (lastN TradingConfig.OBV_WINDOW_SIZE prices)
  let maxObv := jsMaxList (lastN TradingConfig.OBV_WINDOW_SIZE obvs)
  let normalizedPriceSlope := priceSlope / maxPrice * 1000
  let normalizedObvSlope := obvSlope / maxObv * 1000
  let divergenceScore :=
    detectSlopeDivergence normalizedPriceSlope normalizedObvSlope
      TradingConfig.SLOPE_THRESHOLD * TradingConfig.OBV_DIVERGENCE_MULTIPLIER
  let profitScore := calculateProfitScore currentPrice entryPrice
  vwapScore + bbandsScore - rsiScore + divergenceScore + profitScore

/-- Accumulated weighted sum and weight total of getTimeDecayedAverage,
starting at step index i.  The JavaScript loop accumulates in increasing
index order; rational addition being commutative and associative, the
right-recursive accumulation below yields the identical sums. -/
def decayedSums (predictions : List ℚ) (alpha : ℚ) (i : ℕ) : ℚ × ℚ :=
  match predictions with
  | [] => (0, 0)
  | p :: ps =>
    let rest := decayedSums ps alpha (i + 1)
    (p * alpha ^ i + rest.1, alpha ^ i + rest.2)

/-- getTimeDecayedAverage: exponentially time-decayed weighted average of the
predictions with weight alpha to the power of the step index. -/
def getTimeDecayedAverage (predictions : List ℚ) (alpha : ℚ) : ℚ :=
  let s := decayedSums predictions alpha 0
  s.1 / s.2

/-- calculateAiScore. -/
def calculateAiScore (diffPct : ℚ) (hasPosition : Bool) : ℚ :=
  let multiplier :=
    if hasPosition then TradingConfig.AI_SCORE_MULTIPLIER_EXISTING
    else TradingConfig.AI_SCORE_MULTIPLIER
  diffPct * multiplier

/-- Modelled from the spec: decimal count of the base token wrap.near in the
tokenInfo table (the table itself is in the source; the FixedNumber class it
feeds is not). -/
def baseDecimals : ℕ := 24

/-- Decimal count of the quote token (USDC) in the tokenInfo table. -/
def quoteDecimals : ℕ := 6

/-- Modelled from the spec: the FixedNumber class is imported from a file
absent from the repository sources.  Per the spec the entry price is the
quote amount divided by the base amount at full precision, fixed-point not
floating; a fixed-point number is its integer mantissa scaled by the decimal
count and division is exact rational division of the two scaled values. -/
def fixedNumberValue (mantissa : ℤ) (decimals : ℕ) : ℚ :=
  (mantissa : ℚ) / 10 ^ decimals

/-- calculateActualPrice for the single supported symbol NEAR/USDT: the
fixed-point quotient quote-amount over base-amount, each amount floored into
smallest-unit integer form first. -/
def calculateActualPrice (baseAmount quoteAmount : ℚ) : ℚ :=
  let fixedBase := fixedNumberValue ⌊baseAmount * 10 ^ baseDecimals⌋ baseDecimals
  let fixedQuote := fixedNumberValue ⌊quoteAmount * 10 ^ quoteDecimals⌋ quoteDecimals
  fixedQuote / fixedBase

/-- The Position record stored per symbol. -/
structure Position where
  symbol : String
  size : ℚ
  entryPrice : ℚ
  openedAt : ℤ
  lastUpdateTime : ℤ
  cumulativePnl : ℚ
  successfulTrades : ℤ
  totalTrades : ℤ
deriving DecidableEq

/-- The Stats record persisted per symbol when a position closes. -/
structure Stats where
  cumulativePnl : ℚ
  successfulTrades : ℤ
  totalTrades : ℤ
deriving DecidableEq

/-- The slice of the key-value store the ledger reads and writes for one
symbol: the Position record, the USDC balance and the Stats record, each
possibly absent. -/
structure KVState where
  position : Option Position
  balance : Option ℚ
  stats : Option Stats
deriving DecidableEq

/-- The swap-price oracle: amount in and direction (true = buy, quote to
base) to amount out.  The engine treats it as an external deterministic
collaborator within one tick. -/
def Oracle : Type := ℚ → Bool → ℚ

/-- getBalance: the stored balance, or the configured initial balance when
absent. -/
def getBalance (st : KVState) : ℚ :=
  st.balance.getD TradingConfig.INITIAL_BALANCE

/-- closePosition: folds the realized PnL of the stored position into the
cumulative statistics, persists them to the Stats record, credits the
balance with the proceeds of selling the full size and deletes the
Position record.  With no stored position only the delete happens. -/
def closePositionState (st : KVState) (expectedUsdcAmount : ℚ) : KVState :=
  match st.position with
  | none => { st with position := none }
  | some position =>
    let closingPnl := expectedUsdcAmount - position.size * position.entryPrice
    let cumulativePnl := position.cumulativePnl + closingPnl
    let totalTrades := position.totalTrades + 1
    let successfulTrades :=
      position.successfulTrades + (if 0 < closingPnl then 1 else 0)
    let newBalance := getBalance st + expectedUsdcAmount
    { position := none
      balance := some newBalance
      stats := some { cumulativePnl := cumulativePnl
                      successfulTrades := successfulTrades
                      totalTrades := totalTrades } }

/-- The fused decision score computed by analyzeForecast: the AI score from
the time-decayed average of the first 12 forecast steps plus the
technical-analysis score. -/
def computeTotalScore (hasPosition : Bool) (entryPrice : Option ℚ)
    (currentPrice : ℚ) (forecastValue : List ℚ)
    (vwap bbandsUpper bbandsLower rsi : ℚ) (prices obvs : List ℚ) : ℚ :=
  let shortTermForecast := forecastValue.take 12
  let decayAlpha :=
    if hasPosition then TradingConfig.DECAY_ALPHA_EXISTING
    else TradingConfig.DECAY_ALPHA
  let decayedAvgPrice := getTimeDecayedAverage shortTermForecast decayAlpha
  let diffPct := (decayedAvgPrice - currentPrice) / currentPrice
  calculateAiScore diffPct hasPosition +
    calculateTaSignal currentPrice vwap bbandsUpper bbandsLower rsi prices obvs entryPrice

/-- The decision phase of analyzeForecast after the risk checks: compute the
fused score and open, close or hold accordingly.  actualPrice is the
oracle-implied price computed before the scores. -/
def analyzeScores (oracle : Oracle) (now : ℤ) (st : KVState) (symbol : String)
    (currentPrice : ℚ) (forecastValue : List ℚ)
    (vwap bbandsUpper bbandsLower rsi : ℚ) (prices obvs : List ℚ)
    (currentPosition : Option Position) (actualPrice : ℚ) : KVState :=
  let totalScore :=
    computeTotalScore currentPosition.isSome (currentPosition.map (·.entryPrice))
      currentPrice forecastValue vwap bbandsUpper bbandsLower rsi prices obvs
  if TradingConfig.TOTAL_SCORE_BUY_THRESHOLD < totalScore then
    match currentPosition with
    | none =>
      let balance := getBalance st
      if balance ≤ 0 then st
      else
        let expectedNearAmount := oracle balance true
        let size := expectedNearAmount
        let newPosition : Position :=
          { symbol := symbol
            size := size
            entryPrice := actualPrice
            openedAt := now
            lastUpdateTime := now
            cumulativePnl := (st.stats.map (·.cumulativePnl)).getD 0
            successfulTrades := (st.stats.map (·.successfulTrades)).getD 0
            totalTrades := (st.stats.map (·.totalTrades)).getD 0 }
        { st with balance := some 0, position := some newPosition }
    | some _ => st
  else if totalScore < TradingConfig.TOTAL_SCORE_SELL_THRESHOLD then
    match currentPosition with
    | some currentPosition =>
      let expectedUsdcAmount := oracle currentPosition.size false
      closePositionState st expectedUsdcAmount
    | none => st
  else st

/-- analyzeForecast: with a stored position, first value the position through
the oracle and run the stop-loss and take-profit checks, closing and
returning on trigger; otherwise (or when flat) compute the oracle-implied
actual price and fall through to the scoring phase. -/
def analyzeForecast (oracle : Oracle) (now : ℤ) (st : KVState) (symbol : String)
    (currentPrice : ℚ) (forecastValue : List ℚ)
    (vwap bbandsUpper bbandsLower rsi : ℚ) (prices obvs : List ℚ) : KVState :=
  match st.position with
  | some currentPosition =>
    let expectedUsdcAmount := oracle currentPosition.size false
    let actualPrice := calculateActualPrice currentPosition.size expectedUsdcAmount
    let priceDiff :=
      (currentPrice - currentPosition.entryPrice) / currentPosition.entryPrice
    if priceDiff ≤ TradingConfig.STOP_LOSS_THRESHOLD ∨
        TradingConfig.TAKE_PROFIT_THRESHOLD ≤ priceDiff then
      closePositionState st expectedUsdcAmount
    else
      analyzeScores oracle now st symbol currentPrice forecastValue
        vwap bbandsUpper bbandsLower rsi prices obvs (some currentPosition) actualPrice
  | none =>
    let balance := getBalance st
    let actualPrice :=
      if balance ≤ 0 then currentPrice
      else calculateActualPrice (oracle balance true) balance
    analyzeScores oracle now st symbol currentPrice forecastValue
      vwap bbandsUpper bbandsLower rsi prices obvs none actualPrice

/-!  Historical-dataset builder (fetchHistoricalData).  A JavaScript numeric
field is embedded as an optional rational: none stands for any invalid value
(absent key, null, undefined, NaN or an infinity), exactly the values the
completeness filter rejects. -/

/-- A JavaScript numeric field: some finite rational, or an invalid value. -/
abbrev JsNum : Type := Option ℚ

/-- The indicator names the pipeline stores and the dataset builder reads. -/
inductive IndKind
  | candle
  | vwap
  | atr
  | bbands
  | rsi
  | obv
  | depth
  | liq_zones
deriving DecidableEq

/-- A stored indicator payload: a JSON object projected onto the fields the
dataset builder ever reads, each possibly absent or invalid. -/
structure IndPayload where
  open_ : JsNum := none
  high : JsNum := none
  low : JsNum := none
  close : JsNum := none
  volume : JsNum := none
  value : JsNum := none
  valueUpperBand : JsNum := none
  valueMiddleBand : JsNum := none
  valueLowerBand : JsNum := none
  bid_size : JsNum := none
  ask_size : JsNum := none
  bid_levels : JsNum := none
  ask_levels : JsNum := none
  long_size : JsNum := none
  short_size : JsNum := none
  long_accounts : JsNum := none
  short_accounts : JsNum := none
  avg_long_price : JsNum := none
  avg_short_price : JsNum := none
deriving DecidableEq

/-- One row of the datapoints query result. -/
structure Row where
  timestamp : ℤ
  indicator : IndKind
  data : IndPayload
deriving DecidableEq

/-- The per-timestamp group: the last stored payload of each indicator. -/
structure TsData where
  candle : Option IndPayload := none
  vwap : Option IndPayload := none
  atr : Option IndPayload := none
  bbands : Option IndPayload := none
  rsi : Option IndPayload := none
  obv : Option IndPayload := none
  depth : Option IndPayload := none
  liq_zones : Option IndPayload := none
deriving DecidableEq

/-- Store a payload under its indicator name, replacing any earlier one. -/
def setInd (d : TsData) (k : IndKind) (p : IndPayload) : TsData :=
  match k with
  | .candle => { d with candle := some p }
  | .vwap => { d with vwap := some p }
  | .atr => { d with atr := some p }
  | .bbands => { d with bbands := some p }
  | .rsi => { d with rsi := some p }
  | .obv => { d with obv := some p }
  | .depth => { d with depth := some p }
  | .liq_zones => { d with liq_zones := some p }

/-- Insert one row into the grouped map, preserving first-seen key order as a
JavaScript Map does. -/
def insertRow (acc : List (ℤ × TsData)) (r : Row) : List (ℤ × TsData) :=
  if acc.any (fun p => p.1 = r.timestamp) then
    acc.map (fun p =>
      if p.1 = r.timestamp then (p.1, setInd p.2 r.indicator r.data) else p)
  else acc ++ [(r.timestamp, setInd {} r.indicator r.data)]

/-- Group the query rows by timestamp. -/
def groupRows (rows : List Row) : List (ℤ × TsData) :=
  rows.foldl insertRow []

/-- groupedData.get. -/
def lookupTs (grouped : List (ℤ × TsData)) (ts : ℤ) : Option TsData :=
  (grouped.find? (fun p => p.1 = ts)).map (·.2)

/-- The completeness filter: every required indicator present and every one
of the 22 numeric fields used downstream valid. -/
def isComplete (d : TsData) : Bool :=
  match d.candle, d.vwap, d.atr, d.bbands, d.rsi, d.obv, d.depth, d.liq_zones with
  | some c, some v, some a, some b, some r, some o, some dep, some lz =>
    ([c.open_, c.high, c.low, c.close, c.volume, v.value, a.value,
      b.valueUpperBand, b.valueMiddleBand, b.valueLowerBand, r.value, o.value,
      dep.bid_size, dep.ask_size, dep.bid_levels, dep.ask_levels,
      lz.long_size, lz.short_size, lz.long_accounts, lz.short_accounts,
      lz.avg_long_price, lz.avg_short_price] : List JsNum).all (·.isSome)
  | _, _, _, _, _, _, _, _ => false

/-- Read a candle close out of the group; the default is never reached on a
complete timestamp. -/
def tsClose (d : Option TsData) : ℚ :=
  (((d.bind (·.candle)).bind (·.close)) : Option ℚ).getD 0

/-- The fixed-order exogenous feature vector of a timestamp (the 21 fields of
x, the close going to y instead); defaults are never reached on complete
timestamps. -/
def featureVec (d : Option TsData) : List ℚ :=
  let c := d.bind (·.candle)
  let v := d.bind (·.vwap)
  let a := d.bind (·.atr)
  let b := d.bind (·.bbands)
  let r := d.bind (·.rsi)
  let o := d.bind (·.obv)
  let dep := d.bind (·.depth)
  let lz := d.bind (·.liq_zones)
  [((c.bind (·.open_)) : Option ℚ).getD 0,
   ((c.bind (·.high)) : Option ℚ).getD 0,
   ((c.bind (·.low)) : Option ℚ).getD 0,
   ((c.bind (·.volume)) : Option ℚ).getD 0,
   ((v.bind (·.value)) : Option ℚ).getD 0,
   ((a.bind (·.value)) : Option ℚ).getD 0,
   ((b.bind (·.valueUpperBand)) : Option ℚ).getD 0,
   ((b.bind (·.valueMiddleBand)) : Option ℚ).getD 0,
   ((b.bind (·.valueLowerBand)) : Option ℚ).getD 0,
   ((r.bind (·.value)) : Option ℚ).getD 0,
   ((o.bind (·.value)) : Option ℚ).getD 0,
   ((dep.bind (·.bid_size)) : Option ℚ).getD 0,
   ((dep.bind (·.ask_size)) : Option ℚ).getD 0,
   ((dep.bind (·.bid_levels)) : Option ℚ).getD 0,
   ((dep.bind (·.ask_levels)) : Option ℚ).getD 0,
   ((lz.bind (·.long_size)) : Option ℚ).getD 0,
   ((lz.bind (·.short_size)) : Option ℚ).getD 0,
   ((lz.bind (·.long_accounts)) : Option ℚ).getD 0,
   ((lz.bind (·.short_accounts)) : Option ℚ).getD 0,
   ((lz.bind (·.avg_long_price)) : Option ℚ).getD 0,
   ((lz.bind (·.avg_short_price)) : Option ℚ).getD 0]

/-- Failures of the dataset builder. -/
inductive DataErr
  | noHistoricalData
  | noCompleteData
deriving DecidableEq

/-- The aligned dataset: kept timestamps, target series y and feature matrix
x in lockstep order. -/
structure Dataset where
  timestamps : List ℤ
  y : List ℚ
  x : List (List ℚ)
deriving DecidableEq

/-- fetchHistoricalData from the queried window of rows: group by timestamp,
keep the complete timestamps sorted ascending and build y and x over exactly
those timestamps. -/
def fetchHistoricalData (rows : List Row) : Except DataErr Dataset :=
  if rows.isEmpty then .error .noHistoricalData
  else
    let grouped := groupRows rows
    let completeTimestamps :=
      List.insertionSort (· ≤ ·) ((grouped.map Prod.fst).filter (fun ts =>
        match lookupTs grouped ts with
        | some d => isComplete d
        | none => false))
    if completeTimestamps.isEmpty then .error .noCompleteData
    else
      .ok { timestamps := completeTimestamps
            y := completeTimestamps.map (fun ts => tsClose (lookupTs grouped ts))
            x := completeTimestamps.map (fun ts => featureVec (lookupTs grouped ts)) }

/-!  Forecast cache (makeForecast).  State is the key-value slice the
function touches; dataset freshness and the external service response are
per-invocation inputs.  TTL expiry is not modelled: both invocations of the
idempotence claim happen inside one grid slot, within which the short-TTL
entry persists. -/

/-- A forecast record, identified by its list of predicted values. -/
abbrev ForecastRec : Type := List ℚ

/-- The key-value slice the forecast cache touches for one symbol. -/
structure ForecastKV where
  cache : Option ForecastRec
  lastForecast : Option ForecastRec
  horizon : List (ℕ × ℚ)
deriving DecidableEq

/-- Failures of the forecast cache. -/
inductive ForecastErr
  | noRecentForecast
  | serviceError
deriving DecidableEq

/-- makeForecast as in trading.ts: stale data falls back to the last known
good record; otherwise the short-TTL current entry is consulted and returned
on a hit with no external call; on a miss the external service is called
once and both cache entries are written.  The third component counts the
external forecast requests the invocation performs. -/
def makeForecastCached (kv : ForecastKV) (dataFresh : Bool)
    (service : Option ForecastRec) : Except ForecastErr ForecastRec × ForecastKV × ℕ :=
  if !dataFresh then
    match kv.lastForecast with
    | some lastForecast => (.ok lastForecast, kv, 0)
    | none => (.error .noRecentForecast, kv, 0)
  else
    match kv.cache with
    | some cached => (.ok cached, kv, 0)
    | none =>
      match service with
      | none => (.error .serviceError, kv, 1)
      | some forecast =>
        (.ok forecast,
         { kv with cache := some forecast, lastForecast := some forecast }, 1)

/-- makeForecast as in taapi.ts: same stale-data fallback, then it always
calls the external service — the short-TTL current entry is written on
success but never read — and persists the current entry, the last known
good entry and one entry per horizon step. -/
def makeForecastTaapi (kv : ForecastKV) (dataFresh : Bool)
    (service : Option ForecastRec) : Except ForecastErr ForecastRec × ForecastKV × ℕ :=
  if !dataFresh then
    match kv.lastForecast with
    | some lastForecast => (.ok lastForecast, kv, 0)
    | none => (.error .noRecentForecast, kv, 0)
  else
    match service with
    | none => (.error .serviceError, kv, 1)
    | some forecast =>
      (.ok forecast,
       { cache := some forecast
         lastForecast := some forecast
         horizon := (forecast : List ℚ).enum.map (fun p => (p.1 + 1, p.2)) }, 1)

/-!  Forecast accuracy tracker (checkForecastAccuracy). -/

/-- A JavaScript double where the special values matter: the unguarded
R-squared division. -/
inductive JsVal
  | nan
  | inf
  | ninf
  | num (q : ℚ)
deriving DecidableEq

/-- JavaScript division of finite doubles: never raises; a zero denominator
yields NaN or a signed infinity. -/
def jsDiv (x y : ℚ) : JsVal :=
  if y = 0 then
    if x = 0 then .nan else if 0 < x then .inf else .ninf
  else .num (x / y)

/-- 1 - v in JavaScript double semantics for the values jsDiv can produce. -/
def jsOneSub : JsVal → JsVal
  | .nan => .nan
  | .inf => .ninf
  | .ninf => .inf
  | .num q => .num (1 - q)

/-- The aggregate-metrics block of checkForecastAccuracy on the collected
predictions: none when no forecast value was found (the block is skipped),
otherwise MAE, MAPE and the R-squared value 1 - ssRes/ssTot, the division
taken in JavaScript double semantics because ssTot may be zero.  MAE and
MAPE never divide by zero here (the list is non-empty; a zero actual would
make MAPE infinite in JavaScript, which this claim does not touch). -/
def accuracyMetrics (predictions : List ℚ) (actualClose : ℚ) :
    Option (ℚ × ℚ × JsVal) :=
  if predictions.isEmpty then none
  else
    let errors := predictions.map (fun p => p - actualClose)
    let absErrors := errors.map (fun e => |e|)
    let percentErrors := errors.map (fun e => |e / actualClose * 100|)
    let mae := absErrors.sum / absErrors.length
    let mape := percentErrors.sum / percentErrors.length
    let meanActual := actualClose
    let ssRes := (errors.map (fun e => e * e)).sum
    let ssTot := (predictions.map (fun p => (p - meanActual) ^ 2)).sum
    some (mae, mape, jsOneSub (jsDiv ssRes ssTot))

/-- Failures of the key-value store as seen by the accuracy tracker. -/
inductive KVErr
  | listFailed
  | getFailed
deriving DecidableEq

/-- checkForecastAccuracy with the key-value store's outcomes made explicit:
list the per-horizon keys for the timestamp (a rejection propagates — the
function body has no try/catch), return doing nothing when none exist, else
read each key in ascending period order (a rejection propagates), skip null
values, and compute the aggregate metrics.  The result is the value of the
promise the async function returns: ok with the metrics, or the propagated
store error with which the promise rejects. -/
def checkForecastAccuracyRun (listRes : Except KVErr (List ℕ))
    (getRes : ℕ → Except KVErr (Option ℚ)) (actualClose : ℚ) :
    Except KVErr (Option (ℚ × ℚ × JsVal)) := do
  let keys ← listRes
  if keys.isEmpty then
    return none
  else
    let sortedKeys := List.insertionSort (· ≤ ·) keys
    let predictions ← sortedKeys.foldlM (fun acc periodAhead => do
      let forecastValue ← getRes periodAhead
      match forecastValue with
      | some q => pure (acc ++ [q])
      | none => pure acc) ([] : List ℚ)
    return accuracyMetrics predictions actualClose

/-!  Helper lemmas. -/

theorem foldl_min_le_init (l : List ℚ) (i : ℚ) : l.foldl min i ≤ i := by
  induction l generalizing i with
  | nil => simp
  | cons q qs ih =>
    simpa using le_trans (ih (min i q)) (min_le_left i q)

theorem foldl_min_le_mem (l : List ℚ) (i x : ℚ) (hx : x ∈ l) : l.foldl min i ≤ x := by
  induction l generalizing i with
  | nil => cases hx
  | cons q qs ih =>
    rcases List.mem_cons.mp hx with h | h
    · subst h
      simpa using le_trans (foldl_min_le_init qs (min i x)) (min_le_right i x)
    · simpa using ih (min i q) h

theorem init_le_foldl_max (l : List ℚ) (i : ℚ) : i ≤ l.foldl max i := by
  induction l generalizing i with
  | nil => simp
  | cons q qs ih =>
    simpa using le_trans (le_max_left i q) (ih (max i q))

theorem mem_le_foldl_max (l : List ℚ) (i x : ℚ) (hx : x ∈ l) : x ≤ l.foldl max i := by
  induction l generalizing i with
  | nil => cases hx
  | cons q qs ih =>
    rcases List.mem_cons.mp hx with h | h
    · subst h
      simpa using le_trans (le_max_right i x) (init_le_foldl_max qs (max i x))
    · simpa using ih (max i q) h

theorem decayedSums_snd_nonneg (a : ℚ) (ha : 0 < a) :
    ∀ (l : List ℚ) (i : ℕ), 0 ≤ (decayedSums l a i).2 := by
  intro l
  induction l with
  | nil => intro i; simp [decayedSums]
  | cons p ps ih =>
    intro i
    simp only [decayedSums]
    exact add_nonneg (le_of_lt (pow_pos ha i)) (ih (i + 1))

theorem decayedSums_snd_pos (a : ℚ) (ha : 0 < a) (p : ℚ) (ps : List ℚ) (i : ℕ) :
    0 < (decayedSums (p :: ps) a i).2 := by
  simp only [decayedSums]
  exact add_pos_of_pos_of_nonneg (pow_pos ha i) (decayedSums_snd_nonneg a ha ps (i + 1))

theorem decayedSums_fst_le (a hi : ℚ) (ha : 0 < a) :
    ∀ (l : List ℚ), (∀ x ∈ l, x ≤ hi) →
      ∀ i, (decayedSums l a i).1 ≤ hi * (decayedSums l a i).2 := by
  intro l
  induction l with
  | nil => intro _ i; simp [decayedSums]
  | cons p ps ih =>
    intro hub i
    simp only [decayedSums]
    have h1 : p * a ^ i ≤ hi * a ^ i :=
      mul_le_mul_of_nonneg_right (hub p (List.mem_cons_self p ps))
        (le_of_lt (pow_pos ha i))
    have h2 := ih (fun x hx => hub x (List.mem_cons_of_mem p hx)) (i + 1)
    calc p * a ^ i + (decayedSums ps a (i + 1)).1
        ≤ hi * a ^ i + hi * (decayedSums ps a (i + 1)).2 := add_le_add h1 h2
      _ = hi * (a ^ i + (decayedSums ps a (i + 1)).2) := by ring

theorem le_decayedSums_fst (a lo : ℚ) (ha : 0 < a) :
    ∀ (l : List ℚ), (∀ x ∈ l, lo ≤ x) →
      ∀ i, lo * (decayedSums l a i).2 ≤ (decayedSums l a i).1 := by
  intro l
  induction l with
  | nil => intro _ i; simp [decayedSums]
  | cons p ps ih =>
    intro hlb i
    simp only [decayedSums]
    have h1 : lo * a ^ i ≤ p * a ^ i :=
      mul_le_mul_of_nonneg_right (hlb p (List.mem_cons_self p ps))
        (le_of_lt (pow_pos ha i))
    have h2 := ih (fun x hx => hlb x (List.mem_cons_of_mem p hx)) (i + 1)
    calc lo * (a ^ i + (decayedSums ps a (i + 1)).2)
        = lo * a ^ i + lo * (decayedSums ps a (i + 1)).2 := by ring
      _ ≤ p * a ^ i + (decayedSums ps a (i + 1)).1 := add_le_add h1 h2

/-!  Claim theorems. -/

/-- Claim C10: the time-decayed average is a convex combination of its
inputs — for every non-empty prediction list and every decay factor alpha
greater than zero, getTimeDecayedAverage returns a value between the
minimum and the maximum of the prediction list. -/
theorem getTimeDecayedAverage_between (p : ℚ) (ps : List ℚ) (alpha : ℚ)
    (ha : 0 < alpha) :
    ps.foldl min p ≤ getTimeDecayedAverage (p :: ps) alpha ∧
      getTimeDecayedAverage (p :: ps) alpha ≤ ps.foldl max p := by
  have hW : 0 < (decayedSums (p :: ps) alpha 0).2 := decayedSums_snd_pos alpha ha p ps 0
  have havg : getTimeDecayedAverage (p :: ps) alpha =
      (decayedSums (p :: ps) alpha 0).1 / (decayedSums (p :: ps) alpha 0).2 := rfl
  have hlbmem : ∀ x ∈ p :: ps, ps.foldl min p ≤ x := by
    intro x hx
    rcases List.mem_cons.mp hx with h | h
    · subst h; exact foldl_min_le_init ps x
    · exact foldl_min_le_mem ps p x h
  have hubmem : ∀ x ∈ p :: ps, x ≤ ps.foldl max p := by
    intro x hx
    rcases List.mem_cons.mp hx with h | h
    · subst h; exact init_le_foldl_max ps x
    · exact mem_le_foldl_max ps p x h
  constructor
  · rw [havg, le_div_iff₀ hW]
    exact le_decayedSums_fst alpha (ps.foldl min p) ha (p :: ps) hlbmem 0
  · rw [havg, div_le_iff₀ hW]
    calc (decayedSums (p :: ps) alpha 0).1
        ≤ ps.foldl max p * (decayedSums (p :: ps) alpha 0).2 :=
          decayedSums_fst_le alpha (ps.foldl max p) ha (p :: ps) hubmem 0
      _ = ps.foldl max p * (decayedSums (p :: ps) alpha 0).2 := rfl

/-- Witness for C10 at the concrete list 1, 3, 2 with alpha one half. -/
theorem getTimeDecayedAverage_between_witness :
    ([3, 2] : List ℚ).foldl min 1 ≤ getTimeDecayedAverage [1, 3, 2] (1/2) ∧
      getTimeDecayedAverage [1, 3, 2] (1/2) ≤ ([3, 2] : List ℚ).foldl max 1 :=
  getTimeDecayedAverage_between 1 [3, 2] (1/2) (by norm_num)

/-- Claim C2 witness position. -/
def posW : Position :=
  { symbol := "NEAR/USDT", size := 3, entryPrice := 10, openedAt := 0,
    lastUpdateTime := 0, cumulativePnl := 1, successfulTrades := 2, totalTrades := 4 }

/-- Claim C2 witness state. -/
def stPosW : KVState := { position := some posW, balance := some 40, stats := none }

/-- Claim C2: for every stored position and oracle proceeds P for selling the
full position size, closePosition computes realized PnL as proceeds minus
size times entry price, adds it to cumulativePnl, increments totalTrades,
increments successfulTrades exactly when the PnL is strictly positive,
persists the three values to the Stats record, credits the balance with
exactly the proceeds and deletes the Position record. -/
theorem closePosition_transition (st : KVState) (position : Position)
    (expectedUsdcAmount : ℚ) (hpos : st.position = some position) :
    closePositionState st expectedUsdcAmount =
      { position := none
        balance := some (getBalance st + expectedUsdcAmount)
        stats := some
          { cumulativePnl := position.cumulativePnl +
              (expectedUsdcAmount - position.size * position.entryPrice)
            successfulTrades := position.successfulTrades +
              (if 0 < expectedUsdcAmount - position.size * position.entryPrice
               then 1 else 0)
            totalTrades := position.totalTrades + 1 } } := by
  simp only [closePositionState, hpos]

/-- Witness for C2 at a concrete state with a stored position and proceeds 42. -/
theorem closePosition_transition_witness :
    closePositionState stPosW 42 =
      { position := none
        balance := some (getBalance stPosW + 42)
        stats := some
          { cumulativePnl := posW.cumulativePnl + (42 - posW.size * posW.entryPrice)
            successfulTrades := posW.successfulTrades +
              (if 0 < (42 : ℚ) - posW.size * posW.entryPrice then 1 else 0)
            totalTrades := posW.totalTrades + 1 } } :=
  closePosition_transition stPosW posW 42 rfl

/-- Claim C3: with an open position, when the relative move from the entry
price is at or beyond the stop-loss or take-profit threshold, analyzeForecast
closes the position through the oracle and returns; the resulting state is
the closed state for every forecast, VWAP, Bollinger, RSI, price and OBV
input, so the forced close neither computes nor depends on the fused score. -/
theorem analyzeForecast_risk_short_circuit
    (oracle : Oracle) (now : ℤ) (st : KVState) (symbol : String)
    (currentPrice : ℚ) (forecastValue : List ℚ)
    (vwap bbandsUpper bbandsLower rsi : ℚ) (prices obvs : List ℚ)
    (position : Position) (hpos : st.position = some position)
    (hrisk :
      (currentPrice - position.entryPrice) / position.entryPrice ≤
          TradingConfig.STOP_LOSS_THRESHOLD ∨
        TradingConfig.TAKE_PROFIT_THRESHOLD ≤
          (currentPrice - position.entryPrice) / position.entryPrice) :
    analyzeForecast oracle now st symbol currentPrice forecastValue
        vwap bbandsUpper bbandsLower rsi prices obvs =
      closePositionState st (oracle position.size false) := by
  simp only [analyzeForecast, hpos]
  rw [if_pos hrisk]

/-- Witness for C3: entry price 100 and current price 98 trigger the stop
loss at the minus two percent threshold. -/
theorem analyzeForecast_risk_short_circuit_witness :
    analyzeForecast (fun amountIn _ => amountIn * 2) 0
        { position := some posW, balance := some 40, stats := none } "NEAR/USDT"
        (98 * posW.entryPrice / 100) [101] 100 110 90 50 [100] [1] =
      closePositionState { position := some posW, balance := some 40, stats := none }
        ((fun (amountIn : ℚ) (_ : Bool) => amountIn * 2) posW.size false) :=
  analyzeForecast_risk_short_circuit (fun amountIn _ => amountIn * 2) 0
    { position := some posW, balance := some 40, stats := none } "NEAR/USDT"
    (98 * posW.entryPrice / 100) [101] 100 110 90 50 [100] [1] posW rfl
    (by left; norm_num [posW, TradingConfig.STOP_LOSS_THRESHOLD])

/-- Counterexample to claim C7 as stated: with VWAP 0.6 percent above the
price the deviation is beyond the 0.5 percent threshold and VWAP is above
the price, yet the score is 0, not positive. -/
theorem calculateVwapScore_cex :
    (5/1000 : ℚ) < |((1006/1000 : ℚ) - 1) / 1| ∧ (1 : ℚ) < 1006/1000 ∧
      ¬ 0 < calculateVwapScore 1 (1006/1000) := by
  have habs : |((1006/1000 : ℚ) - 1) / 1| = 6/1000 := by
    rw [abs_of_pos] <;> norm_num
  refine ⟨by rw [habs]; norm_num, by norm_num, ?_⟩
  have hscore : calculateVwapScore 1 (1006/1000) = 0 := by
    simp only [calculateVwapScore]
    rw [if_neg (by rw [habs]; norm_num)]
    rw [if_pos (by norm_num)]
    rw [habs]
    norm_num
  rw [hscore]
  exact lt_irrefl 0

/-- Claim C7 amended: the score is 0 whenever the relative deviation is
within 0.5 percent; beyond that it is the sign of the deviation times a half
point per whole additional percent, rounded down — so it stays 0 until the
deviation exceeds 1.5 percent; VWAP 2 percent above the price scores one
half, strictly larger than the score 0 at 0.6 percent above. -/
theorem calculateVwapScore_amended (currentPrice vwap : ℚ) (hp : 0 < currentPrice) :
    (|(vwap - currentPrice) / currentPrice| ≤ 5/1000 →
      calculateVwapScore currentPrice vwap = 0) ∧
    (5/1000 < |(vwap - currentPrice) / currentPrice| →
      calculateVwapScore currentPrice vwap =
        (if 0 < (vwap - currentPrice) / currentPrice then 1 else -1) *
          ((1/2) * (⌊(|(vwap - currentPrice) / currentPrice| - 5/1000) / (1/100)⌋ : ℚ))) ∧
    calculateVwapScore currentPrice (currentPrice * (102/100)) = 1/2 ∧
    calculateVwapScore currentPrice (currentPrice * (1006/1000)) = 0 ∧
    calculateVwapScore currentPrice (currentPrice * (1006/1000)) <
      calculateVwapScore currentPrice (currentPrice * (102/100)) := by
  have hne : currentPrice ≠ 0 := ne_of_gt hp
  have hd102 : (currentPrice * (102/100) - currentPrice) / currentPrice = (2/100 : ℚ) := by
    rw [show currentPrice * (102/100) - currentPrice = (2/100) * currentPrice from by ring]
    exact mul_div_cancel_right₀ _ hne
  have hd1006 : (currentPrice * (1006/1000) - currentPrice) / currentPrice = (6/1000 : ℚ) := by
    rw [show currentPrice * (1006/1000) - currentPrice = (6/1000) * currentPrice from by ring]
    exact mul_div_cancel_right₀ _ hne
  have h102 : calculateVwapScore currentPrice (currentPrice * (102/100)) = 1/2 := by
    simp only [calculateVwapScore, hd102]
    rw [show |(2/100 : ℚ)| = 2/100 from abs_of_pos (by norm_num)]
    rw [if_neg (by norm_num), if_pos (by norm_num)]
    rw [show ((2/100 : ℚ) - 0.005) / 0.01 = 3/2 from by norm_num]
    rw [show (⌊(3/2 : ℚ)⌋ : ℤ) = 1 from by norm_num [Int.floor_eq_iff]]
    norm_num
  have h1006 : calculateVwapScore currentPrice (currentPrice * (1006/1000)) = 0 := by
    simp only [calculateVwapScore, hd1006]
    rw [show |(6/1000 : ℚ)| = 6/1000 from abs_of_pos (by norm_num)]
    rw [if_neg (by norm_num), if_pos (by norm_num)]
    rw [show ((6/1000 : ℚ) - 0.005) / 0.01 = 1/10 from by norm_num]
    rw [show (⌊(1/10 : ℚ)⌋ : ℤ) = 0 from by norm_num [Int.floor_eq_iff]]
    norm_num
  refine ⟨?_, ?_, h102, h1006, by rw [h102, h1006]; norm_num⟩
  · intro h
    have h' : |(vwap - currentPrice) / currentPrice| ≤ (0.005 : ℚ) := by
      rw [show (0.005 : ℚ) = 5/1000 from by norm_num]
      exact h
    simp only [calculateVwapScore]
    rw [if_pos h']
  · intro h
    have h' : ¬ |(vwap - currentPrice) / currentPrice| ≤ (0.005 : ℚ) := by
      rw [show (0.005 : ℚ) = 5/1000 from by norm_num]
      exact not_le.mpr h
    simp only [calculateVwapScore]
    rw [if_neg h']
    split_ifs with hd
    · rw [one_mul]
      norm_num
    · rw [neg_one_mul]
      norm_num

/-- Witness for the amended C7 at currentPrice 1 and vwap three halves. -/
theorem calculateVwapScore_amended_witness :
    (|((3/2 : ℚ) - 1) / 1| ≤ 5/1000 → calculateVwapScore 1 (3/2) = 0) ∧
    (5/1000 < |((3/2 : ℚ) - 1) / 1| →
      calculateVwapScore 1 (3/2) =
        (if 0 < ((3/2 : ℚ) - 1) / 1 then 1 else -1) *
          ((1/2) * (⌊(|((3/2 : ℚ) - 1) / 1| - 5/1000) / (1/100)⌋ : ℚ))) ∧
    calculateVwapScore 1 (1 * (102/100)) = 1/2 ∧
    calculateVwapScore 1 (1 * (1006/1000)) = 0 ∧
    calculateVwapScore 1 (1 * (1006/1000)) < calculateVwapScore 1 (1 * (102/100)) :=
  calculateVwapScore_amended 1 (3/2) (by norm_num)

/-- Counterexample to claim C8 as stated: with the normalized price slope at
0.11, just above the 0.1 threshold, the divergence score equals the full
divergence strength — the scale factor is 1, not strictly between 0 and 1. -/
theorem detectSlopeDivergence_cex :
    (1/10 : ℚ) ≤ |(11/100 : ℚ)| ∧
    detectSlopeDivergence (11/100) (-(1/5)) (1/10) = 11/100 ∧
    ((11/100 : ℚ) * -(-(1/5))) / max |(11/100 : ℚ)| |(-(1/5) : ℚ)| = 11/100 := by
  have ha : |(11/100 : ℚ)| = 11/100 := abs_of_pos (by norm_num)
  have hb : |(-(1/5) : ℚ)| = 1/5 := by rw [abs_neg]; exact abs_of_pos (by norm_num)
  refine ⟨by rw [ha]; norm_num, ?_, ?_⟩
  · simp only [detectSlopeDivergence]
    rw [if_neg (by rw [ha]; norm_num)]
    rw [ha, hb]
    rw [show max (11/100 : ℚ) (1/5) = 1/5 from max_eq_right (by norm_num)]
    rw [show min ((11/100 : ℚ) / (1/10)) 1 = 1 from min_eq_right (by norm_num)]
    norm_num
  · rw [ha, hb]
    rw [show max (11/100 : ℚ) (1/5) = 1/5 from max_eq_right (by norm_num)]
    norm_num

/-- Claim C8 amended: the divergence score is 0 when the absolute normalized
price slope is below the threshold; otherwise it equals exactly the
divergence strength (priceSlope times negated obvSlope over the larger
absolute slope) — the scale factor min of absolute price slope over
threshold and 1 is always 1 on this branch, so no smooth attenuation near
the threshold occurs; the configured weight is applied by the caller. -/
theorem detectSlopeDivergence_amended (priceSlope obvSlope threshold : ℚ)
    (hθ : 0 < threshold) :
    (|priceSlope| < threshold → detectSlopeDivergence priceSlope obvSlope threshold = 0) ∧
    (threshold ≤ |priceSlope| →
      detectSlopeDivergence priceSlope obvSlope threshold =
        (priceSlope * -obvSlope) / max |priceSlope| |obvSlope|) := by
  constructor
  · intro h
    simp only [detectSlopeDivergence]
    rw [if_pos h]
  · intro h
    simp only [detectSlopeDivergence]
    rw [if_neg (not_lt.mpr h)]
    rw [show min (|priceSlope| / threshold) 1 = 1 from
      min_eq_right ((one_le_div hθ).mpr h)]
    rw [mul_one]

/-- Witness for the amended C8 at slopes 3 and 2 with threshold one tenth. -/
theorem detectSlopeDivergence_amended_witness :
    (|(3 : ℚ)| < 1/10 → detectSlopeDivergence 3 2 (1/10) = 0) ∧
    ((1/10 : ℚ) ≤ |(3 : ℚ)| →
      detectSlopeDivergence 3 2 (1/10) = ((3 : ℚ) * -2) / max |(3 : ℚ)| |(2 : ℚ)|) :=
  detectSlopeDivergence_amended 3 2 (1/10) (by norm_num)

/-- Claim C6: when every stored prediction exactly equals the actual close,
the aggregate-metrics block of checkForecastAccuracy completes without an
exception: the total sum of squared deviations is zero, the unguarded
division runs under total JavaScript double semantics and the reported
R-squared is the NaN sentinel (MAE and MAPE are 0). -/
theorem checkForecastAccuracy_degenerate (predictions : List ℚ) (actualClose : ℚ)
    (hne : predictions ≠ []) (hall : ∀ p ∈ predictions, p = actualClose) :
    accuracyMetrics predictions actualClose = some (0, 0, JsVal.nan) := by
  have hempty : predictions.isEmpty = false := by
    cases predictions with
    | nil => exact absurd rfl hne
    | cons p ps => rfl
  have h0 : predictions.map (fun p => p - actualClose) =
      List.replicate predictions.length 0 := by
    rw [List.eq_replicate_iff]
    constructor
    · simp
    · intro b hb
      obtain ⟨p, hp, rfl⟩ := List.mem_map.mp hb
      rw [hall p hp, sub_self]
  have h0' : predictions.map (fun p => (p - actualClose) ^ 2) =
      List.replicate predictions.length 0 := by
    rw [List.eq_replicate_iff]
    constructor
    · simp
    · intro b hb
      obtain ⟨p, hp, rfl⟩ := List.mem_map.mp hb
      rw [hall p hp, sub_self]
      ring
  simp only [accuracyMetrics, hempty, Bool.false_eq_true, if_false, h0, h0',
    List.map_replicate, List.sum_replicate]
  simp only [abs_zero, zero_div, mul_zero, zero_mul, smul_zero, jsDiv, jsOneSub]
  norm_num

/-- Witness for C6 with two predictions both equal to the actual close 5. -/
theorem checkForecastAccuracy_degenerate_witness :
    accuracyMetrics [5, 5] 5 = some (0, 0, JsVal.nan) :=
  checkForecastAccuracy_degenerate [5, 5] 5 (by simp) (by
    intro p hp
    rcases List.mem_cons.mp hp with h | h
    · exact h
    · simpa using h)

/-- Claim C9, evaluated at the failing input: when the key-value store list
operation fails, checkForecastAccuracy has no internal handler, so the
promise the accuracy check returns rejects with that store error — the
error propagates to the caller instead of being logged and swallowed
(the call site wraps the un-awaited async call in a synchronous try/catch,
which can never observe the rejection). -/
theorem checkForecastAccuracy_propagates_kv_failure :
    checkForecastAccuracyRun (.error .listFailed) (fun _ => .ok none) 100 =
      .error .listFailed := rfl

/-- Claim C4, evaluated at the failing input: in the taapi.ts makeForecast a
first successful invocation inside a grid slot performs one external call
and stores the record in the short-TTL current cache, yet a second
invocation in the same slot performs another external call instead of
returning from the cache (the entry is written but never read); the sibling
trading.ts makeForecast on the same sequence answers the second invocation
from the cache with zero external calls, returning the identical record. -/
theorem makeForecast_second_call_in_slot :
    (makeForecastTaapi ⟨none, none, []⟩ true (some [101])).2.2 = 1 ∧
    ((makeForecastTaapi ⟨none, none, []⟩ true (some [101])).2.1).cache = some [101] ∧
    (makeForecastTaapi
      ((makeForecastTaapi ⟨none, none, []⟩ true (some [101])).2.1)
      true (some [101])).2.2 = 1 ∧
    (makeForecastCached ⟨none, none, []⟩ true (some [101])).2.2 = 1 ∧
    (makeForecastCached
      ((makeForecastCached ⟨none, none, []⟩ true (some [101])).2.1)
      true (some [101])).2.2 = 0 ∧
    (makeForecastCached
      ((makeForecastCached ⟨none, none, []⟩ true (some [101])).2.1)
      true (some [101])).1 = .ok [101] :=
  ⟨rfl, rfl, rfl, rfl, rfl, rfl⟩

/-- Claim C1: for every state with no stored position, a positive available
balance B and fused total score strictly above the buy threshold,
analyzeForecast opens a position sized at the oracle quote Q for swapping
the entire balance, with entry price the fixed-point quotient B over Q
computed by calculateActualPrice, zeroes the stored balance, stamps both
timestamps with the current time and carries the cumulative PnL and trade
counters over from the persisted Stats record, or zero when absent; the
Stats record itself is left unchanged. -/
theorem analyzeForecast_open_transition
    (oracle : Oracle) (now : ℤ) (st : KVState) (symbol : String)
    (currentPrice : ℚ) (forecastValue : List ℚ)
    (vwap bbandsUpper bbandsLower rsi : ℚ) (prices obvs : List ℚ)
    (hflat : st.position = none)
    (hbal : 0 < getBalance st)
    (hscore : TradingConfig.TOTAL_SCORE_BUY_THRESHOLD <
      computeTotalScore false none currentPrice forecastValue
        vwap bbandsUpper bbandsLower rsi prices obvs) :
    analyzeForecast oracle now st symbol currentPrice forecastValue
        vwap bbandsUpper bbandsLower rsi prices obvs =
      { position := some
          { symbol := symbol
            size := oracle (getBalance st) true
            entryPrice := calculateActualPrice (oracle (getBalance st) true) (getBalance st)
            openedAt := now
            lastUpdateTime := now
            cumulativePnl := (st.stats.map (·.cumulativePnl)).getD 0
            successfulTrades := (st.stats.map (·.successfulTrades)).getD 0
            totalTrades := (st.stats.map (·.totalTrades)).getD 0 }
        balance := some 0
        stats := st.stats } := by
  have hnb : ¬ getBalance st ≤ 0 := not_le.mpr hbal
  simp only [analyzeForecast, hflat]
  rw [if_neg hnb]
  simp only [analyzeScores, Option.isSome_none, Option.map_none']
  rw [if_pos hscore]
  rw [if_neg hnb]

/-- Witness oracle for C1 and C3: doubles the amount put in. -/
def oracleW : Oracle := fun amountIn _ => amountIn * 2

/-- Witness state for C1: flat, balance 100, no persisted stats. -/
def stFlatW : KVState := { position := none, balance := some 100, stats := none }

/-- Witness for C1: a forecast one percent above the current price with
neutral technical inputs scores 18, above the buy threshold of 5, and the
position opens on the full balance of 100. -/
theorem analyzeForecast_open_transition_witness :
    analyzeForecast oracleW 7 stFlatW "NEAR/USDT" 100 [101] 100 110 90 50 [100] [1] =
      { position := some
          { symbol := "NEAR/USDT"
            size := oracleW (getBalance stFlatW) true
            entryPrice := calculateActualPrice (oracleW (getBalance stFlatW) true)
              (getBalance stFlatW)
            openedAt := 7
            lastUpdateTime := 7
            cumulativePnl := (stFlatW.stats.map (·.cumulativePnl)).getD 0
            successfulTrades := (stFlatW.stats.map (·.successfulTrades)).getD 0
            totalTrades := (stFlatW.stats.map (·.totalTrades)).getD 0 }
        balance := some 0
        stats := stFlatW.stats } :=
  analyzeForecast_open_transition oracleW 7 stFlatW "NEAR/USDT" 100 [101] 100 110 90 50
    [100] [1] rfl (by norm_num [getBalance, stFlatW])
    (by
      have hdecay : getTimeDecayedAverage [(101 : ℚ)] TradingConfig.DECAY_ALPHA = 101 := by
        simp [getTimeDecayedAverage, decayedSums]
      have hslope1 : calculateSlope [(100 : ℚ)] TradingConfig.OBV_WINDOW_SIZE = 0 := by
        simp [calculateSlope, TradingConfig.OBV_WINDOW_SIZE]
      have hslope2 : calculateSlope [(1 : ℚ)] TradingConfig.OBV_WINDOW_SIZE = 0 := by
        simp [calculateSlope, TradingConfig.OBV_WINDOW_SIZE]
      have hvwap : calculateVwapScore 100 100 = 0 := by
        simp only [calculateVwapScore, sub_self, zero_div, abs_zero]
        rw [if_pos (by norm_num)]
      have hbb : calculateBBandsScore 100 110 90 = 0 := by
        norm_num [calculateBBandsScore]
      have hrsi : calculateRsiScore 50 = 0 := by
        norm_num [calculateRsiScore, jsSign]
      have hdiv : detectSlopeDivergence 0 0 TradingConfig.SLOPE_THRESHOLD = 0 := by
        rw [detectSlopeDivergence, if_pos (by norm_num [TradingConfig.SLOPE_THRESHOLD])]
      have hta : calculateTaSignal 100 100 110 90 50 [100] [1] none = 0 := by
        simp only [calculateTaSignal, hvwap, hbb, hrsi, hslope1, hslope2,
          calculateProfitScore, zero_div, zero_mul, hdiv]
        norm_num
      simp only [computeTotalScore, List.take, hdecay, hta, calculateAiScore,
        Bool.false_eq_true, if_false]
      norm_num [TradingConfig.AI_SCORE_MULTIPLIER, TradingConfig.TOTAL_SCORE_BUY_THRESHOLD])

/-- Claim C5: whenever fetchHistoricalData succeeds on a window of raw
indicator rows, the returned timestamps are sorted ascending; a timestamp is
kept exactly when its grouped data is complete — all eight indicators
present and every numeric field used downstream valid — so one invalid
field removes exactly that timestamp; and the target series y and feature
matrix x are built over exactly the kept timestamps, giving all three
arrays identical length (each feature row carrying the 21 exogenous
fields). -/
theorem fetchHistoricalData_aligned (rows : List Row) (ds : Dataset)
    (h : fetchHistoricalData rows = .ok ds) :
    ds.timestamps.Sorted (· ≤ ·) ∧
    (∀ ts : ℤ, ts ∈ ds.timestamps ↔
      ∃ d, lookupTs (groupRows rows) ts = some d ∧ isComplete d = true) ∧
    ds.y.length = ds.timestamps.length ∧
    ds.x.length = ds.timestamps.length ∧
    (∀ v ∈ ds.x, v.length = 21) := by
  rw [fetchHistoricalData] at h
  by_cases hemp : rows.isEmpty
  · rw [if_pos hemp] at h
    exact absurd h (by simp)
  · rw [if_neg hemp] at h
    set grouped := groupRows rows with hgrouped
    set kept := List.insertionSort (· ≤ ·) ((grouped.map Prod.fst).filter (fun ts =>
      match lookupTs grouped ts with
      | some d => isComplete d
      | none => false)) with hkept
    by_cases hkemp : kept.isEmpty
    · rw [if_pos hkemp] at h
      exact absurd h (by simp)
    · rw [if_neg hkemp] at h
      simp only [Except.ok.injEq] at h
      subst h
      refine ⟨?_, ?_, by simp, by simp, ?_⟩
      · exact List.sorted_insertionSort (· ≤ ·) _
      · intro ts
        simp only [List.mem_insertionSort, List.mem_filter]
        constructor
        · rintro ⟨hmem, hpred⟩
          cases hl : lookupTs grouped ts with
          | none => rw [hl] at hpred; cases hpred
          | some d =>
            rw [hl] at hpred
            exact ⟨d, rfl, hpred⟩
        · rintro ⟨d, hd, hc⟩
          constructor
          · obtain ⟨e, he, hfd⟩ := Option.map_eq_some'.mp hd
            have hmem := List.mem_of_find?_eq_some he
            have hp := List.find?_some he
            have hts : e.1 = ts := by simpa using hp
            exact List.mem_map.mpr ⟨e, hmem, hts⟩
          · rw [hd]
            exact hc
      · intro v hv
        obtain ⟨ts, _, rfl⟩ := List.mem_map.mp hv
        rfl

/-- Witness payload for C5 with every field valid. -/
def payloadW : IndPayload :=
  { open_ := some 1, high := some 1, low := some 1, close := some 1,
    volume := some 1, value := some 1, valueUpperBand := some 1,
    valueMiddleBand := some 1, valueLowerBand := some 1, bid_size := some 1,
    ask_size := some 1, bid_levels := some 1, ask_levels := some 1,
    long_size := some 1, short_size := some 1, long_accounts := some 1,
    short_accounts := some 1, avg_long_price := some 1, avg_short_price := some 1 }

/-- Witness window for C5: one timestamp carrying all eight indicators. -/
def wRows : List Row :=
  [⟨0, .candle, payloadW⟩, ⟨0, .vwap, payloadW⟩, ⟨0, .atr, payloadW⟩,
   ⟨0, .bbands, payloadW⟩, ⟨0, .rsi, payloadW⟩, ⟨0, .obv, payloadW⟩,
   ⟨0, .depth, payloadW⟩, ⟨0, .liq_zones, payloadW⟩]

/-- Witness dataset for C5: the single complete timestamp survives. -/
def wDs : Dataset :=
  { timestamps := [0], y := [1],
    x := [[1, 1, 1, 1, 1, 1, 1, 1, 1, 1, 1, 1, 1, 1, 1, 1, 1, 1, 1, 1, 1]] }

/-- Witness for C5 applying the alignment theorem to the concrete window. -/
theorem fetchHistoricalData_aligned_witness :
    wDs.timestamps.Sorted (· ≤ ·) ∧ wDs.y.length = wDs.timestamps.length ∧
      wDs.x.length = wDs.timestamps.length :=
  ⟨(fetchHistoricalData_aligned wRows wDs rfl).1,
   (fetchHistoricalData_aligned wRows wDs rfl).2.2.1,
   (fetchHistoricalData_aligned wRows wDs rfl).2.2.2.1⟩

end AiTrader
